import Mathlib

/-!
Verification of the hybrid retrieval / query-analysis engine
(`backend/app/domain/report/search/hybrid_search.py`,
`backend/app/domain/report/search/retriever.py`,
`backend/app/domain/report/core/rag_chain.py`,
`backend/app/domain/report/core/utils_text.py`,
`backend/app/domain/report/planner/today_plan_chain.py`).

The Python code is shallowly embedded: pure functions become Lean functions,
calls to the external vector index / embedding provider become explicit
oracle parameters, raised exceptions become `Except` / `Option` values, and
`datetime.date` becomes the `PyDate` structure below.  Python float scores
are modelled as rationals.
-/

/-! ## Python-style string helpers -/

/-- Characters treated as whitespace by Python `str.split()` / `str.strip()`
(ASCII subset: space, tab, newline, carriage return, vertical tab, form feed). -/
def pyIsSpace (c : Char) : Bool :=
  c = ' ' || c = '\t' || c = '\n' || c = '\r' || c = Char.ofNat 11 || c = Char.ofNat 12

/-- Python `str.lower()` on a string, as a character list. -/
def pyLower (s : String) : List Char := s.toList.map Char.toLower

/-- Helper for `pySplit`: accumulates the current word (reversed). -/
def pySplitAux : List Char → List Char → List (List Char)
  | [], acc => if acc.isEmpty then [] else [acc.reverse]
  | c :: rest, acc =>
    if pyIsSpace c then
      if acc.isEmpty then pySplitAux rest [] else acc.reverse :: pySplitAux rest []
    else pySplitAux rest (c :: acc)

/-- Python `str.split()` with no argument: split on whitespace runs, no empty parts. -/
def pySplit (l : List Char) : List (List Char) := pySplitAux l []

/-- Python `str.strip()`: drop whitespace from both ends. -/
def pyStrip (l : List Char) : List Char :=
  ((l.dropWhile pyIsSpace).reverse.dropWhile pyIsSpace).reverse

/-- Python substring test `needle in hay` (both already lists of characters). -/
def containsSeq (needle : List Char) : List Char → Bool
  | [] => needle.isEmpty
  | c :: rest => needle.isPrefixOf (c :: rest) || containsSeq needle rest

/-- Python `needle in hay` where the needle is a string literal. -/
def containsStr (needle : String) (hay : List Char) : Bool :=
  containsSeq needle.toList hay

/-- Python truthiness of an optional string (`None` and `""` are falsy). -/
def pyTruthy : Option String → Bool
  | none => false
  | some s => s ≠ ""

/-- First-occurrence deduplication, as iterating a Python `set` built
incrementally would see membership (order of the model list preserved). -/
def pyDedupAux (seen : List String) : List String → List String
  | [] => []
  | x :: xs => if seen.contains x then pyDedupAux seen xs else x :: pyDedupAux (x :: seen) xs

/-- Distinct elements of a list, first occurrences kept in order. -/
def pyDedup (l : List String) : List String := pyDedupAux [] l

/-- Decimal digit test (regex `\d`, ASCII). -/
def isDig (c : Char) : Bool := '0' ≤ c && c ≤ '9'

/-- Value of a decimal digit character. -/
def digVal (c : Char) : Nat := c.toNat - '0'.toNat

/-- Numeric value of a digit string (`int(...)` on a digit-only string). -/
def natOfDigits (l : List Char) : Nat := l.foldl (fun a c => a * 10 + digVal c) 0

/-- Decimal digits of a natural number, most significant first (fuel-driven). -/
def natDigitsAux : Nat → Nat → List Char
  | 0, _ => []
  | fuel + 1, n =>
    if n < 10 then [Char.ofNat (n + '0'.toNat)]
    else natDigitsAux fuel (n / 10) ++ [Char.ofNat (n % 10 + '0'.toNat)]

/-- Decimal representation of a natural number. -/
def natToStr (n : Nat) : String := String.mk (natDigitsAux (n + 1) n)

/-- Zero-pad to two digits (`%m`, `%d` in `strftime`). -/
def pad2 (n : Nat) : String := (if n < 10 then "0" else "") ++ natToStr n

/-- Zero-pad to four digits (`%Y` in `strftime`; all dates in scope have 4-digit years). -/
def pad4 (n : Nat) : String :=
  (if n < 10 then "000" else if n < 100 then "00" else if n < 1000 then "0" else "") ++ natToStr n

/-! ## Python `datetime.date` -/

/-- Model of `datetime.date`: a (year, month, day) triple.  Values produced by
the embedded code are always calendar-valid; validity is enforced where the
source constructs dates from parsed input (`mkDate`). -/
structure PyDate where
  year : Nat
  month : Nat
  day : Nat
deriving DecidableEq, Repr

/-- Gregorian leap-year test, as in `calendar`/`datetime`. -/
def isLeap (y : Nat) : Bool := (y % 4 = 0 && y % 100 ≠ 0) || y % 400 = 0

/-- Days in a month of a given year. -/
def daysInMonth (y m : Nat) : Nat :=
  if m = 2 then (if isLeap y then 29 else 28)
  else if m = 4 || m = 6 || m = 9 || m = 11 then 30
  else 31

/-- `datetime.date(year, month, day)`: `none` models the `ValueError` raised on
an invalid calendar date (including the `MINYEAR`/`MAXYEAR` bounds 1..9999). -/
def mkDate (y m d : Nat) : Option PyDate :=
  if 1 ≤ y && y ≤ 9999 && 1 ≤ m && m ≤ 12 && 1 ≤ d && d ≤ daysInMonth y m then
    some ⟨y, m, d⟩
  else none

/-- Cumulative days before each month in a non-leap year. -/
def cumDays : Nat → Nat
  | 1 => 0 | 2 => 31 | 3 => 59 | 4 => 90 | 5 => 120 | 6 => 151
  | 7 => 181 | 8 => 212 | 9 => 243 | 10 => 273 | 11 => 304 | 12 => 334
  | _ => 0

/-- Days before the given month in the given year. -/
def daysBeforeMonth (y m : Nat) : Nat :=
  cumDays m + (if 3 ≤ m && isLeap y then 1 else 0)

/-- Proleptic-Gregorian ordinal (`date.toordinal`): 0001-01-01 ↦ 1. -/
def rataDie (d : PyDate) : Nat :=
  let y := d.year - 1
  365 * y + y / 4 - y / 100 + y / 400 + daysBeforeMonth d.year d.month + d.day

/-- Python `date.weekday()`: Monday = 0 .. Sunday = 6. -/
def pyWeekday (d : PyDate) : Nat := (rataDie d + 6) % 7

/-- `date.fromordinal`: inverse of `rataDie` (the standard civil-from-days
computation over a 400-year era anchored at 0000-03-01; CPython implements
`date ± timedelta` through exactly this ordinal arithmetic). -/
def dateFromOrdinal (n : Nat) : PyDate :=
  let z := n + 305
  let era := z / 146097
  let doe := z % 146097
  let yoe := (doe - doe / 1460 + doe / 36524 - doe / 146096) / 365
  let doy := doe - (365 * yoe + yoe / 4 - yoe / 100)
  let mp := (5 * doy + 2) / 153
  let day := doy - (153 * mp + 2) / 5 + 1
  let month := if mp < 10 then mp + 3 else mp - 9
  let year := yoe + era * 400 + (if month ≤ 2 then 1 else 0)
  ⟨year, month, day⟩

/-- Successor day (`d + timedelta(days=1)`). -/
def nextDay (d : PyDate) : PyDate := dateFromOrdinal (rataDie d + 1)

/-- Predecessor day (`d - timedelta(days=1)`). -/
def prevDay (d : PyDate) : PyDate := dateFromOrdinal (rataDie d - 1)

/-- `d + timedelta(days=n)`. -/
def addDays (d : PyDate) (n : Nat) : PyDate := dateFromOrdinal (rataDie d + n)

/-- `d - timedelta(days=n)`. -/
def subDays (d : PyDate) (n : Nat) : PyDate := dateFromOrdinal (rataDie d - n)

/-- `d.strftime("%Y-%m-%d")`. -/
def fmtDate (d : PyDate) : String := pad4 d.year ++ "-" ++ pad2 d.month ++ "-" ++ pad2 d.day

/-- The `date_list` built by the source loops
(`current = start; while current <= end: append current.strftime(...);
current += timedelta(days=1)`): one `"%Y-%m-%d"` string per ordinal from
`start` to `stop` inclusive, empty when `start` is after `stop`. -/
def dateList (start stop : PyDate) : List String :=
  (List.range (rataDie stop + 1 - rataDie start)).map
    (fun i => fmtDate (dateFromOrdinal (rataDie start + i)))

/-- Split on the literal `-` character, keeping empty parts (used by the
`strptime("%Y-%m-%d")` model). -/
def splitOnDash : List Char → List Char → List (List Char)
  | [], acc => [acc.reverse]
  | c :: rest, acc =>
    if c = '-' then acc.reverse :: splitOnDash rest []
    else splitOnDash rest (c :: acc)

/-- `datetime.strptime(s, "%Y-%m-%d").date()`: `none` models the raised
`ValueError`.  `%Y` matches exactly four digits, `%m`/`%d` one or two digits,
and the resulting triple must be a valid calendar date. -/
def parseDateStr (s : String) : Option PyDate :=
  match splitOnDash s.toList [] with
  | [ys, ms, ds] =>
    if ys.length = 4 && ys.all isDig &&
        1 ≤ ms.length && ms.length ≤ 2 && ms.all isDig &&
        1 ≤ ds.length && ds.length ≤ 2 && ds.all isDig then
      mkDate (natOfDigits ys) (natOfDigits ms) (natOfDigits ds)
    else none
  | _ => none

/-! ## Regex-style matchers for the Query Analyzer

The source uses a handful of fixed regular expressions; each is embedded as a
hand-rolled matcher with the same greedy/backtracking semantics on the
relevant pattern shapes. -/

/-- Consume a run of regex `\s*` greedily (before a non-space literal, greedy
matching needs no backtracking). -/
def eatSp (l : List Char) : List Char := l.dropWhile pyIsSpace

/-- Expect one literal character. -/
def expectChar (c : Char) : List Char → Option (List Char)
  | x :: rest => if x = c then some rest else none
  | [] => none

/-- Strip a literal character-sequence from the front, returning the rest. -/
def stripPref : List Char → List Char → Option (List Char)
  | [], cs => some cs
  | p :: ps, c :: cs => if c = p then stripPref ps cs else none
  | _ :: _, [] => none

/-- Regex `\d{4}`: exactly four digits. -/
def parseD4 : List Char → Option (Nat × List Char)
  | c1 :: c2 :: c3 :: c4 :: rest =>
    if isDig c1 && isDig c2 && isDig c3 && isDig c4 then
      some (digVal c1 * 1000 + digVal c2 * 100 + digVal c3 * 10 + digVal c4, rest)
    else none
  | _ => none

/-- Regex `\d{1,2}` (greedy, with backtracking): try two digits, then one,
running the continuation on the remainder. -/
def parseD12 (cs : List Char) (k : Nat → List Char → Option α) : Option α :=
  match cs with
  | c1 :: c2 :: rest =>
    if isDig c1 then
      if isDig c2 then
        match k (digVal c1 * 10 + digVal c2) rest with
        | some r => some r
        | none => k (digVal c1) (c2 :: rest)
      else k (digVal c1) (c2 :: rest)
    else none
  | [c1] => if isDig c1 then k (digVal c1) [] else none
  | [] => none

/-- Anchored match of `(\d{4})\s*년\s*(\d{1,2})\s*월\s*(\d{1,2})\s*일`. -/
def matchYmdAt (cs : List Char) : Option (Nat × Nat × Nat) :=
  match parseD4 cs with
  | none => none
  | some (y, r1) =>
    match expectChar '년' (eatSp r1) with
    | none => none
    | some r2 =>
      parseD12 (eatSp r2) (fun m r3 =>
        match expectChar '월' (eatSp r3) with
        | none => none
        | some r4 =>
          parseD12 (eatSp r4) (fun d r5 =>
            match expectChar '일' (eatSp r5) with
            | none => none
            | some _ => some (y, m, d)))

/-- Anchored match of `(\d{4})-(\d{1,2})-(\d{1,2})`. -/
def matchIsoAt (cs : List Char) : Option (Nat × Nat × Nat) :=
  match parseD4 cs with
  | none => none
  | some (y, r1) =>
    match expectChar '-' r1 with
    | none => none
    | some r2 =>
      parseD12 r2 (fun m r3 =>
        match expectChar '-' r3 with
        | none => none
        | some r4 =>
          parseD12 r4 (fun d _ => some (y, m, d)))

/-- Anchored match of `(\d{1,2})\s*월\s*(\d{1,2})\s*일`. -/
def matchMdAt (cs : List Char) : Option (Nat × Nat) :=
  parseD12 cs (fun m r1 =>
    match expectChar '월' (eatSp r1) with
    | none => none
    | some r2 =>
      parseD12 (eatSp r2) (fun d r3 =>
        match expectChar '일' (eatSp r3) with
        | none => none
        | some _ => some (m, d)))

/-- Regex `search`: leftmost position where the anchored matcher succeeds. -/
def searchGroups (matchAt : List Char → Option α) : List Char → Option α
  | [] => matchAt []
  | c :: rest =>
    match matchAt (c :: rest) with
    | some g => some g
    | none => searchGroups matchAt rest

/-- Containment of `lit1 ++ \s* ++ lit2` anywhere in the text. -/
def matchLitSpLitAt (lit1 lit2 : String) (cs : List Char) : Bool :=
  match stripPref lit1.toList cs with
  | some r => (stripPref lit2.toList (eatSp r)).isSome
  | none => false

/-- Search for a Boolean anchored pattern at any position. -/
def searchBool (p : List Char → Bool) : List Char → Bool
  | [] => p []
  | c :: rest => p (c :: rest) || searchBool p rest

/-- Regex `(이번\s*주|금주)` as a whole-text search. -/
def thisWeekPat (cs : List Char) : Bool :=
  searchBool (fun l => matchLitSpLitAt "이번" "주" l || (stripPref "금주".toList l).isSome) cs

/-- Regex `(지난\s*주|저번\s*주|전주)` as a whole-text search. -/
def lastWeekPat (cs : List Char) : Bool :=
  searchBool (fun l =>
    matchLitSpLitAt "지난" "주" l || matchLitSpLitAt "저번" "주" l ||
    (stripPref "전주".toList l).isSome) cs

/-- Regex `(이번\s*달|금월|이번\s*월)` as a whole-text search. -/
def thisMonthPat (cs : List Char) : Bool :=
  searchBool (fun l =>
    matchLitSpLitAt "이번" "달" l || (stripPref "금월".toList l).isSome ||
    matchLitSpLitAt "이번" "월" l) cs

/-- Regex `(지난\s*달|전월|지난\s*월)` as a whole-text search. -/
def lastMonthPat (cs : List Char) : Bool :=
  searchBool (fun l =>
    matchLitSpLitAt "지난" "달" l || (stripPref "전월".toList l).isSome ||
    matchLitSpLitAt "지난" "월" l) cs

/-! ## QueryAnalyzer -/

/-- The query normalisation at the top of `QueryAnalyzer._detect_date_range`:
lowercase, replace `( ) ? ! , .` by spaces, and re-join the whitespace-split
words with single spaces. -/
def normalizeQuery (q : String) : List Char :=
  let lowered := q.toList.map Char.toLower
  let repl := lowered.map (fun c =>
    if c = '(' || c = ')' || c = '?' || c = '!' || c = ',' || c = '.' then ' ' else c)
  List.intercalate [' '] (pySplit repl)

/-- Third specific-date pattern (`MM월 DD일`, year from `base_date`), including
the `try/except ValueError: continue` fallthrough. -/
def specificDateP3 (n : List Char) (base : PyDate) : Option PyDate :=
  match searchGroups matchMdAt n with
  | some (m, d) => mkDate base.year m d
  | none => none

/-- Second and third specific-date patterns. -/
def specificDateP2 (n : List Char) (base : PyDate) : Option PyDate :=
  match searchGroups matchIsoAt n with
  | some (y, m, d) =>
    match mkDate y m d with
    | some dt => some dt
    | none => specificDateP3 n base
  | none => specificDateP3 n base

/-- The specific-date loop of `_detect_date_range`: the three absolute-date
patterns in order, first valid date wins; an invalid date (`ValueError`)
falls through to the next pattern. -/
def specificDateStage (n : List Char) (base : PyDate) : Option PyDate :=
  match searchGroups matchYmdAt n with
  | some (y, m, d) =>
    match mkDate y m d with
    | some dt => some dt
    | none => specificDateP2 n base
  | none => specificDateP2 n base

/-- A `{"start": ..., "end": ...}` date-range dictionary. -/
structure DateRange where
  dstart : PyDate
  dend : PyDate
deriving DecidableEq, Repr

/-- `QueryAnalyzer._detect_date_range`. -/
def detectDateRange (query : String) (base : PyDate) : Option DateRange :=
  let n := normalizeQuery query
  match specificDateStage n base with
  | some dt => some ⟨dt, dt⟩
  | none =>
    if thisWeekPat n then
      let monday := subDays base (pyWeekday base)
      some ⟨monday, addDays monday 4⟩
    else if lastWeekPat n then
      let monday := subDays base (pyWeekday base)
      let lastMonday := subDays monday 7
      some ⟨lastMonday, addDays lastMonday 4⟩
    else if thisMonthPat n then
      let firstDay : PyDate := ⟨base.year, base.month, 1⟩
      let lastDay :=
        if base.month = 12 then prevDay ⟨base.year + 1, 1, 1⟩
        else prevDay ⟨base.year, base.month + 1, 1⟩
      some ⟨firstDay, lastDay⟩
    else if lastMonthPat n then
      let lastMonth : PyDate :=
        if base.month = 1 then ⟨base.year - 1, 12, 1⟩
        else ⟨base.year, base.month - 1, 1⟩
      some ⟨⟨lastMonth.year, lastMonth.month, 1⟩, prevDay ⟨base.year, base.month, 1⟩⟩
    else none

/-- `QueryAnalyzer._detect_chunk_types`. -/
def detectChunkTypes (query : String) : List String :=
  let ql := pyLower query
  if ["미종결", "미완료", "처리 못한", "안 한", "안한"].any (fun k => containsStr k ql) then
    ["pending"]
  else if ["요약", "전체", "종합"].any (fun k => containsStr k ql) then
    ["summary"]
  else if ["계획", "예정", "일정"].any (fun k => containsStr k ql) then
    ["plan_note"]
  else ["detail", "pending", "plan_note"]

/-- `QueryAnalyzer._is_unresolved_query`. -/
def isUnresolvedQuery (query : String) : Bool :=
  let ql := pyLower query
  ["미종결", "미완료", "처리 못한", "안 한", "안한", "안 끝난", "안끝난"].any
    (fun k => containsStr k ql)

/-- `QueryAnalyzer._is_statistical_query`. -/
def isStatisticalQuery (query : String) : Bool :=
  let ql := pyLower query
  ["가장", "많이", "몰린", "요일", "날짜", "통계", "평균", "최대", "최소", "집계", "분포"].any
    (fun k => containsStr k ql)

/-! ## `utils_text.extract_customer_names` -/

/-- Hangul-syllable class, regex `[가-힣]`. -/
def hangul (c : Char) : Bool := '가' ≤ c && c ≤ '힣'

/-- Take exactly `n` leading characters satisfying `p`. -/
def takeExact (p : Char → Bool) : Nat → List Char → Option (List Char × List Char)
  | 0, cs => some ([], cs)
  | n + 1, c :: cs =>
    if p c then
      match takeExact p n cs with
      | some (g, rest) => some (c :: g, rest)
      | none => none
    else none
  | _ + 1, [] => none

/-- Regex `([가-힣]{2,4})` greedy with backtracking: try 4, 3, then 2 syllables,
running the continuation on the remainder; the group is returned as a string. -/
def hangul24 (cs : List Char) (k : List Char → List Char → Option α) : Option α :=
  match takeExact hangul 4 cs with
  | some (g, rest) =>
    match k g rest with
    | some r => some r
    | none =>
      match takeExact hangul 3 cs with
      | some (g3, rest3) =>
        match k g3 rest3 with
        | some r => some r
        | none =>
          match takeExact hangul 2 cs with
          | some (g2, rest2) => k g2 rest2
          | none => none
      | none => none
  | none =>
    match takeExact hangul 3 cs with
    | some (g3, rest3) =>
      match k g3 rest3 with
      | some r => some r
      | none =>
        match takeExact hangul 2 cs with
        | some (g2, rest2) => k g2 rest2
        | none => none
    | none =>
      match takeExact hangul 2 cs with
      | some (g2, rest2) => k g2 rest2
      | none => none

/-- Anchored match of pattern 1, `([가-힣]{2,4})\s*고객`. -/
def custPat1At (cs : List Char) : Option (String × List Char) :=
  hangul24 cs (fun g r =>
    match stripPref "고객".toList (eatSp r) with
    | some rest => some (String.mk g, rest)
    | none => none)

/-- Anchored match of pattern 2, `고객\s*([가-힣]{2,4})`. -/
def custPat2At (cs : List Char) : Option (String × List Char) :=
  match stripPref "고객".toList cs with
  | some r => hangul24 (eatSp r) (fun g rest => some (String.mk g, rest))
  | none => none

/-- Anchored match of pattern 3, `([가-힣]{2,4})(?:님|씨)`. -/
def custPat3At (cs : List Char) : Option (String × List Char) :=
  hangul24 cs (fun g r =>
    match stripPref "님".toList r with
    | some rest => some (String.mk g, rest)
    | none =>
      match stripPref "씨".toList r with
      | some rest => some (String.mk g, rest)
      | none => none)

/-- Anchored match of pattern 4, `([가-힣]{2,4})(?:에게|와|과)`. -/
def custPat4At (cs : List Char) : Option (String × List Char) :=
  hangul24 cs (fun g r =>
    match stripPref "에게".toList r with
    | some rest => some (String.mk g, rest)
    | none =>
      match stripPref "와".toList r with
      | some rest => some (String.mk g, rest)
      | none =>
        match stripPref "과".toList r with
        | some rest => some (String.mk g, rest)
        | none => none)

/-- `re.findall`: scan left to right, collecting non-overlapping leftmost
matches (fuel = input length; every match here consumes at least one char). -/
def findAllAux (matchAt : List Char → Option (String × List Char)) :
    Nat → List Char → List String
  | 0, _ => []
  | _ + 1, [] => []
  | fuel + 1, c :: rest =>
    match matchAt (c :: rest) with
    | some (g, after) => g :: findAllAux matchAt fuel after
    | none => findAllAux matchAt fuel rest

/-- `re.findall(pattern, text)` for the four customer-name patterns. -/
def findAll (matchAt : List Char → Option (String × List Char)) (cs : List Char) :
    List String :=
  findAllAux matchAt cs.length cs

/-- `extract_customer_names`.  The final `list(set(...))` step of the source
enumerates a Python `set`, whose iteration order depends on the interpreter's
per-process string-hash seed; that order is modelled by the explicit
enumeration parameter `ord` (see `ValidSetOrder`). -/
def extract_customer_names (text : String) (ord : List String → List String) :
    List String :=
  let cs := text.toList
  let matches1 := findAll custPat1At cs
  let matches2 := findAll custPat2At cs
  let matches3 := findAll custPat3At cs
  let matches4 := findAll custPat4At cs
  let all_matches := matches1 ++ matches2 ++ matches3 ++ matches4
  ord (all_matches.filter (fun n => 2 ≤ n.length && n.length ≤ 4))

/-- A legitimate behaviour of Python `list(set(...))`: some duplicate-free
enumeration of the elements of the input list. -/
def ValidSetOrder (ord : List String → List String) : Prop :=
  ∀ l : List String, (ord l).Nodup ∧ ∀ s : String, s ∈ ord l ↔ s ∈ l

/-! ## `SearchKeywords` and `QueryAnalyzer.extract_keywords` -/

/-- The `SearchKeywords` dataclass (with the `__post_init__` list defaults). -/
structure SearchKeywords where
  customer_names : List String := []
  date_range : Option DateRange := none
  single_date : Option String := none
  chunk_types : List String := []
  is_unresolved_query : Bool := false
  is_statistical_query : Bool := false
deriving DecidableEq, Repr

/-- `QueryAnalyzer.extract_keywords`.  `today` models `date.today()` (used only
when `base_date` is `None`); `ord` is the `list(set(...))` enumeration of
`extract_customer_names`.  The `owner` argument is accepted and ignored,
as in the source. -/
def extract_keywords (query : String) (base_date : Option PyDate)
    (owner : Option String) (today : PyDate)
    (ord : List String → List String) : SearchKeywords :=
  let base := base_date.getD today
  let customer_names := extract_customer_names query ord
  let detected := detectDateRange query base
  let singleAndRange : Option String × Option DateRange :=
    match detected with
    | some r =>
      if r.dstart = r.dend then (some (fmtDate r.dstart), none) else (none, some r)
    | none => (none, none)
  { customer_names := customer_names
    date_range := singleAndRange.2
    single_date := singleAndRange.1
    chunk_types := detectChunkTypes query
    is_unresolved_query := isUnresolvedQuery query
    is_statistical_query := isStatisticalQuery query }

/-! ## ChromaDB `where` filters (`KeywordFilter.build_where_filter`) -/

/-- A single ChromaDB field condition: `{"field": "value"}` or
`{"field": {"$in": [...]}}`. -/
inductive WhereCond where
  | eq (field value : String)
  | inList (field : String) (values : List String)
deriving DecidableEq, Repr

/-- A ChromaDB `where` dictionary as built by the source: either a single
condition or `{"$and": [...]}` over a list of conditions. -/
inductive WhereClause where
  | single (c : WhereCond)
  | andList (cs : List WhereCond)
deriving DecidableEq, Repr

/-- Chunk metadata: a string-keyed record of string fields. -/
abbrev Metadata : Type := List (String × String)

/-- `dict.get(key)` on metadata. -/
def alookup (k : String) : List (String × α) → Option α
  | [] => none
  | (k₁, v) :: rest => if k₁ = k then some v else alookup k rest

/-- Field named by a condition. -/
def condField : WhereCond → String
  | .eq f _ => f
  | .inList f _ => f

/-- Whether a filter contains a clause on the `date` field (either an equality
or a `$in` list). -/
def hasDateClause : WhereClause → Bool
  | .single c => condField c = "date"
  | .andList cs => cs.any (fun c => condField c = "date")

/-- Whether a chunk's metadata satisfies one condition. -/
def matchesCond (meta : Metadata) : WhereCond → Bool
  | .eq f v =>
    match alookup f meta with
    | some x => x = v
    | none => false
  | .inList f vs =>
    match alookup f meta with
    | some x => vs.contains x
    | none => false

/-- Whether a chunk's metadata satisfies a whole `where` filter. -/
def matchesWhere (meta : Metadata) : WhereClause → Bool
  | .single c => matchesCond meta c
  | .andList cs => cs.all (fun c => matchesCond meta c)

/-- The date conditions appended by `build_where_filter` when no truthy
`single_date` is present: the detected/fallback range expanded to an explicit
date list, else (both absent) the trailing-365-day window ending at
`date.today()` (`today`). -/
def dateCondsFromRange (dr : Option DateRange) (today : PyDate) : List WhereCond :=
  match dr with
  | some r =>
    let date_list := dateList r.dstart r.dend
    if date_list.isEmpty then [] else [.inList "date" date_list]
  | none =>
    let date_list := dateList (subDays today 365) today
    if date_list.isEmpty then [] else [.inList "date" date_list]

/-- `KeywordFilter.build_where_filter`.  `today` models `date.today()` in the
fallback branch. -/
def build_where_filter (keywords : SearchKeywords) (owner : Option String)
    (base_date_range : Option DateRange) (today : PyDate) : WhereClause :=
  let baseConds : List WhereCond :=
    [.inList "report_type" ["daily", "weekly", "monthly"], .eq "level" "daily"]
  let ownerConds : List WhereCond :=
    match owner with
    | some o => if o ≠ "" then [.eq "owner" o] else []
    | none => []
  let dr : Option DateRange :=
    match keywords.date_range with
    | some r => some r
    | none => base_date_range
  let dateConds : List WhereCond :=
    match keywords.single_date with
    | some s => if s ≠ "" then [.eq "date" s] else dateCondsFromRange dr today
    | none => dateCondsFromRange dr today
  let chunkConds : List WhereCond :=
    if keywords.chunk_types.isEmpty then [] else [.inList "chunk_type" keywords.chunk_types]
  let conditions := baseConds ++ ownerConds ++ dateConds ++ chunkConds
  match conditions with
  | [c] => .single c
  | cs => .andList cs

/-- The `where` filter built for the main vector search in
`HybridSearcher.search` (steps at lines 370-378): when `customer_names` is
non-empty only the caller-supplied fallback window is nulled out before
calling `build_where_filter`. -/
def mainWhereFilter (keywords : SearchKeywords) (owner : Option String)
    (base_date_range : Option DateRange) (today : PyDate) : WhereClause :=
  let effective_date_range :=
    if keywords.customer_names.isEmpty then base_date_range else none
  build_where_filter keywords owner effective_date_range today

/-- The first-retry filter of the relaxation ladder in `HybridSearcher.search`
(`SearchKeywords(chunk_types=keywords.chunk_types)` with
`base_date_range=None`). -/
def relaxedWhereFilter (keywords : SearchKeywords) (owner : Option String)
    (today : PyDate) : WhereClause :=
  build_where_filter { chunk_types := keywords.chunk_types } owner none today

/-- The second-retry "minimal" filter of the relaxation ladder
(report_type + level, plus owner when truthy). -/
def minimalWhereFilter (owner : Option String) : WhereClause :=
  .andList
    ([.inList "report_type" ["daily", "weekly", "monthly"], .eq "level" "daily"] ++
      (match owner with
       | some o => if o ≠ "" then [WhereCond.eq "owner" o] else []
       | none => []))

/-! ## `UnifiedRetriever` (retriever.py) -/

/-- The `UnifiedSearchResult` pydantic model; `score` is the similarity as a
rational (Python float). -/
structure UnifiedSearchResult where
  chunk_id : String
  doc_id : String
  doc_type : String
  chunk_type : String
  text : String
  score : ℚ
  metadata : Metadata
deriving DecidableEq, Repr

/-- The (single-query slice of the) dictionary returned by
`collection.query`: parallel lists of ids, documents, metadatas, distances. -/
structure ChromaQueryResp where
  ids : List String
  documents : List String
  metadatas : List Metadata
  distances : List ℚ
deriving Repr

/-- The result-conversion loop of `_execute_search`, assuming the parallel
lists are long enough (the guard is in `execute_search`):
`score = 1.0 / (1.0 + distances[i])`. -/
def convertResp (r : ChromaQueryResp) : List UnifiedSearchResult :=
  (List.range r.ids.length).map (fun i =>
    let meta := (r.metadatas.getD i [])
    { chunk_id := r.ids.getD i ""
      doc_id := (alookup "doc_id" meta).getD ""
      doc_type := (alookup "doc_type" meta).getD ""
      chunk_type := (alookup "chunk_type" meta).getD ""
      text := r.documents.getD i ""
      score := 1 / (1 + r.distances.getD i 0)
      metadata := meta })

/-- `UnifiedRetriever._execute_search`.  `embed` is the outcome of
`_get_query_embedding` (which logs and re-raises provider errors, modelled by
`Except.error`); `runQuery` is the `collection.query` call (`Except.error`
models a raised index exception, caught by the inner `except` which returns
`[]`).  The whole body sits in an outer `try/except Exception` returning `[]`,
so a re-raised embedding error also yields `[]`; an `IndexError` from
mismatched parallel lists in the conversion loop is likewise caught by the
outer handler. -/
def execute_search (embed : Except Unit (List ℚ))
    (runQuery : List ℚ → Except Unit ChromaQueryResp) : List UnifiedSearchResult :=
  match embed with
  | .error _ => []
  | .ok emb =>
    match runQuery emb with
    | .error _ => []
    | .ok results =>
      if results.documents.length < results.ids.length ||
          results.metadatas.length < results.ids.length ||
          results.distances.length < results.ids.length then []
      else convertResp results

/-! ## The rerank / filter / top-k passes of `HybridSearcher.search`
(steps 4-7, lines 639-785 of hybrid_search.py) -/

/-- Stable insertion of one element into a score-descending list (Python
`list.sort(key=lambda r: -r.score)` is stable; an inserted element goes after
earlier elements of equal score). -/
def insertDesc (r : UnifiedSearchResult) : List UnifiedSearchResult → List UnifiedSearchResult
  | [] => [r]
  | x :: xs => if r.score < x.score then x :: insertDesc r xs else r :: x :: xs

/-- Stable sort by descending `score`. -/
def sortDesc : List UnifiedSearchResult → List UnifiedSearchResult
  | [] => []
  | x :: xs => insertDesc x (sortDesc xs)

/-- Exclusion set of step 4 (strict customer filtering). -/
def excludedWords4 : List String :=
  ["상담", "상담한", "상담했", "상담할", "상담하",
   "보장", "리포트", "자료", "정리", "구성", "작성", "분석",
   "업무", "일정", "계획", "뽑아줘", "뽑아", "날짜", "다", "전부", "모두"]

/-- Exclusion set of step 5 (customer-priority ordering). -/
def excludedWords5 : List String :=
  ["상담", "보장", "리포트", "자료", "정리", "구성", "작성", "분석", "업무", "일정", "계획"]

/-- Stop-word set of step 6 (lexical keyword boost). -/
def stopWords6 : List String :=
  ["언제", "했었", "했지", "했어", "했는", "했던", "최근", "나", "내",
   "는", "은", "이", "가", "을", "를", "의", "에", "에서", "로", "으로",
   "고객", "했", "했는지", "했었지", "했었어", "했었는", "했었던"]

/-- `customer_name in text_lower or customer_name in metadata_customer`
(metadata `customer` field stripped and lowercased), any name. -/
def custMatch (names : List String) (r : UnifiedSearchResult) : Bool :=
  let text_lower := pyLower r.text
  let metadata_customer :=
    (pyStrip ((alookup "customer" r.metadata).getD "").toList).map Char.toLower
  names.any (fun n => containsSeq n.toList text_lower || containsSeq n.toList metadata_customer)

/-- Step 4: strict customer filtering (keep matches if any; otherwise move
text-matching results to the front). -/
def step4CustomerFilter (keywords : SearchKeywords)
    (search_results : List UnifiedSearchResult) : List UnifiedSearchResult :=
  if !keywords.customer_names.isEmpty && search_results.length > 0 then
    let actual_customer_names :=
      keywords.customer_names.filter (fun n => !(excludedWords4.contains n))
    if !actual_customer_names.isEmpty then
      let filtered_by_customer :=
        search_results.filter (fun r => custMatch actual_customer_names r)
      if filtered_by_customer.length > 0 then filtered_by_customer
      else
        let part := search_results.partition (fun r =>
          actual_customer_names.any (fun n => containsSeq n.toList (pyLower r.text)))
        part.1 ++ part.2
    else search_results
  else search_results

/-- Step 5: customer-priority ordering (matched results first, each partition
sorted by descending score). -/
def step5CustomerSort (keywords : SearchKeywords)
    (search_results : List UnifiedSearchResult) : List UnifiedSearchResult :=
  if !keywords.customer_names.isEmpty then
    let actual_customer_names :=
      keywords.customer_names.filter (fun n => !(excludedWords5.contains n))
    if !actual_customer_names.isEmpty then
      let part := search_results.partition (fun r => custMatch actual_customer_names r)
      sortDesc part.1 ++ sortDesc part.2
    else search_results
  else search_results

/-- Step 6 keyword extraction: query words of length ≥ 2 that are not stop
words. -/
def meaningfulKeywords (query : String) : List String :=
  ((pySplit query.toList).map String.mk).filter
    (fun w => 2 ≤ w.length && !(stopWords6.contains w))

/-- Step 6: lexical keyword boost (keyword-matching results first, each
partition sorted by descending score). -/
def step6KeywordSort (query : String)
    (search_results : List UnifiedSearchResult) : List UnifiedSearchResult :=
  let meaningful_keywords := meaningfulKeywords query
  if !meaningful_keywords.isEmpty then
    let part := search_results.partition (fun r =>
      meaningful_keywords.any (fun k => containsSeq (pyLower k) (pyLower r.text)))
    sortDesc part.1 ++ sortDesc part.2
  else search_results

/-- Step 7: top-k cutoff, bypassed for customer-name, comparison/statistical
and "all dates" queries. -/
def step7TopK (query : String) (keywords : SearchKeywords) (top_k : Nat)
    (search_results : List UnifiedSearchResult) : List UnifiedSearchResult :=
  let query_lower := pyLower query
  let all_date_keywords :=
    ["다", "모두", "전부", "전체", "모든", "일체", "전체다", "다알려줘", "다알려",
     "전부알려줘", "알려줘"]
  let comparison_keywords :=
    ["비교", "비율", "차이", "변화", "증가", "감소", "늘어", "줄어", "대비", "대조"]
  let statistical_keywords := ["가장", "많이", "몰린", "많은", "통계", "집계", "건수"]
  let is_all_dates_query := all_date_keywords.any (fun k => containsStr k query_lower)
  let is_comparison_query := comparison_keywords.any (fun k => containsStr k query_lower)
  let is_statistical_query := statistical_keywords.any (fun k => containsStr k query_lower)
  let requires_all_data :=
    is_comparison_query || is_statistical_query || keywords.is_statistical_query
  if !keywords.customer_names.isEmpty then search_results
  else if requires_all_data then search_results
  else if is_all_dates_query then search_results
  else search_results.take top_k

/-- Steps 4-7 of `HybridSearcher.search` composed in source order (the plain
`search_results.sort(key=lambda r: -r.score)` between steps 5 and 6
included). -/
def rerankPipeline (query : String) (keywords : SearchKeywords) (top_k : Nat)
    (search_results : List UnifiedSearchResult) : List UnifiedSearchResult :=
  step7TopK query keywords top_k
    (step6KeywordSort query
      (sortDesc (step5CustomerSort keywords (step4CustomerFilter keywords search_results))))

/-! ## `ReportRAGChain._filter_completed_unresolved_tasks` (rag_chain.py) -/

/-- `ReportRAGChain._parse_date_from_metadata`: read the `date` field, treat
`None`/`""` as absent, then `strptime("%Y-%m-%d")` with `ValueError` → `None`. -/
def parseDateFromMetadata (metadata : Metadata) : Option PyDate :=
  match alookup "date" metadata with
  | none => none
  | some s => if s = "" then none else parseDateStr s

/-- Distinct words of `set(text.lower().split())`. -/
def wordsOf (s : String) : List String :=
  pyDedup ((pySplit (pyLower s)).map String.mk)

/-- The per-task overlap test of the loop body: guarded by the truthiness of
both word sets, `overlap = len(issue_words & task_words) / len(issue_words)`
and the strict comparison `overlap > 0.5`. -/
def overlapCheck (issueText taskText : String) : Bool :=
  let issue_words := wordsOf issueText
  let task_words := wordsOf taskText
  if !issue_words.isEmpty && !task_words.isEmpty then
    let overlap : ℚ :=
      ((issue_words.filter (fun w => task_words.contains w)).length : ℚ) /
        (issue_words.length : ℚ)
    decide (overlap > 1 / 2)
  else false

/-- The unguarded overlap formula of the specification,
`|words(candidate) ∩ words(next_day_result)| / |words(candidate)|`. -/
def overlapRatio (issueText taskText : String) : ℚ :=
  (((wordsOf issueText).filter (fun w => (wordsOf taskText).contains w)).length : ℚ) /
    ((wordsOf issueText).length : ℚ)

/-- Whether one candidate survives the unresolved-item temporal filter.
`searchNextDay` is the oracle for the secondary `retriever.search_daily`
lookup (candidate text, next day) ↦ next-day `detail` results. -/
def keepCandidate (searchNextDay : String → PyDate → List UnifiedSearchResult)
    (issue_result : UnifiedSearchResult) : Bool :=
  match parseDateFromMetadata issue_result.metadata with
  | none => true
  | some issue_date =>
    let next_day := nextDay issue_date
    let next_day_tasks := searchNextDay issue_result.text next_day
    !(next_day_tasks.any (fun task => overlapCheck issue_result.text task.text))

/-- `ReportRAGChain._filter_completed_unresolved_tasks`. -/
def filter_completed_unresolved_tasks
    (searchNextDay : String → PyDate → List UnifiedSearchResult) :
    List UnifiedSearchResult → List UnifiedSearchResult
  | [] => []
  | issue_result :: rest =>
    match parseDateFromMetadata issue_result.metadata with
    | none => issue_result :: filter_completed_unresolved_tasks searchNextDay rest
    | some issue_date =>
      let next_day := nextDay issue_date
      let next_day_tasks := searchNextDay issue_result.text next_day
      let is_completed :=
        next_day_tasks.any (fun task => overlapCheck issue_result.text task.text)
      if is_completed then filter_completed_unresolved_tasks searchNextDay rest
      else issue_result :: filter_completed_unresolved_tasks searchNextDay rest

/-! ## `ReportRAGChain._collect_daily_counts` (rag_chain.py) -/

/-- The dictionary returned by `_collect_daily_counts`; `date_counts` is the
`Counter` as an insertion-ordered association list. -/
structure DailyCountsResult where
  date_counts : List (String × Nat)
  max_date : Option String
  max_count : Nat
  details : List (String × String × String)
deriving DecidableEq, Repr

/-- The empty result returned on missing documents or on a raised exception. -/
def emptyDailyCounts : DailyCountsResult :=
  { date_counts := [], max_date := none, max_count := 0, details := [] }

/-- `Counter[key] += 1`: update in place, new keys appended in insertion
order. -/
def bump (k : String) : List (String × Nat) → List (String × Nat)
  | [] => [(k, 1)]
  | (k₁, v) :: rest => if k₁ = k then (k₁, v + 1) :: rest else (k₁, v) :: bump k rest

/-- The `doc_text[:100] + "..."` excerpt of a detail entry. -/
def excerpt (s : String) : String :=
  if s.length > 100 then String.mk (s.toList.take 100) ++ "..." else s

/-- The match test of the counting loop: `category_keyword in category or
category_keyword in text_lower`. -/
def countMatch (category_keyword : String) (chunk : Metadata × String) : Bool :=
  let category := (alookup "category" chunk.1).getD ""
  let text_lower := pyLower chunk.2
  containsSeq category_keyword.toList category.toList ||
    containsSeq category_keyword.toList text_lower

/-- One iteration of the counting loop over fetched `(metadata, document)`
pairs: count and record only matched entries carrying a truthy `date`. -/
def countStep (category_keyword : String)
    (acc : List (String × Nat) × List (String × String × String))
    (chunk : Metadata × String) :
    List (String × Nat) × List (String × String × String) :=
  if countMatch category_keyword chunk then
    match alookup "date" chunk.1 with
    | some doc_date =>
      if doc_date ≠ "" then
        (bump doc_date acc.1,
         acc.2 ++ [(doc_date, excerpt chunk.2,
                    ((alookup "category" chunk.1).getD ""))])
      else acc
    | none => acc
  else acc

/-- `Counter.most_common(1)`: the entry with the maximal count, earliest
insertion first among ties (Python's stable descending sort). -/
def maxEntry : List (String × Nat) → Option (String × Nat)
  | [] => none
  | p :: rest =>
    match maxEntry rest with
    | none => some p
    | some q => if q.2 > p.2 then some q else some p

/-- `ReportRAGChain._collect_daily_counts`.  `doc_ids_empty` is the emptiness
of `_get_document_ids_in_range(...)` (that helper returns the empty set when
its own index call raises); `fetched` is the `collection.get` result for the
detail-chunk filter, with `none` modelling a raised exception (the `except`
branch returns the empty result). -/
def collect_daily_counts (doc_ids_empty : Bool)
    (fetched : Option (List (Metadata × String)))
    (category_keyword : String) : DailyCountsResult :=
  if doc_ids_empty then emptyDailyCounts
  else
    match fetched with
    | none => emptyDailyCounts
    | some chunks =>
      let p := chunks.foldl (countStep category_keyword) ([], [])
      match maxEntry p.1 with
      | some m =>
        { date_counts := p.1, max_date := some m.1, max_count := m.2, details := p.2 }
      | none =>
        { date_counts := p.1, max_date := none, max_count := 0, details := p.2 }

/-- Sum of all values of the `date_counts` map. -/
def sumCounts (l : List (String × Nat)) : Nat := (l.map Prod.snd).sum

/-- Maximum value of the `date_counts` map (0 when empty). -/
def maxCountVal (l : List (String × Nat)) : Nat :=
  l.foldr (fun p acc => max p.2 acc) 0

/-! ## The duplicate-prefix thinning loop of `TodayPlanChain`
(today_plan_chain.py, lines 232-245 and 481-494) -/

/-- The duplicate-check key: `result.text[:50].strip()`. -/
def textKey (r : UnifiedSearchResult) : String := String.mk (pyStrip (r.text.toList.take 50))

/-- The loop state: remaining input, `seen_tasks`, and `len(diverse_tasks)`
so far.  A result is kept when its key is truthy and unseen; the loop breaks
as soon as `len(diverse_tasks) >= cap` (cap is 15 in the first copy of the
loop and 20 in the second). -/
def dedupAux (cap : Nat) :
    List UnifiedSearchResult → List String → Nat → List UnifiedSearchResult
  | [], _, _ => []
  | r :: rest, seen_tasks, len =>
    let text_key := textKey r
    if text_key ≠ "" && !(seen_tasks.contains text_key) then
      if len + 1 ≥ cap then [r]
      else r :: dedupAux cap rest (text_key :: seen_tasks) (len + 1)
    else
      if len ≥ cap then []
      else dedupAux cap rest seen_tasks len

/-- The whole deduplication pass (`seen_tasks = set()`, `diverse_tasks = []`). -/
def dedupDiverseTasks (cap : Nat) (results : List UnifiedSearchResult) :
    List UnifiedSearchResult :=
  dedupAux cap results [] 0

/-! ## Helper lemmas -/

theorem insertDesc_perm (r : UnifiedSearchResult) (l : List UnifiedSearchResult) :
    (insertDesc r l).Perm (r :: l) := by
  induction l with
  | nil => exact List.Perm.refl _
  | cons x xs ih =>
    by_cases h : r.score < x.score
    · simp only [insertDesc, if_pos h]
      exact (List.Perm.cons x ih).trans (List.Perm.swap r x xs)
    · simp only [insertDesc, if_neg h]
      exact List.Perm.refl _

theorem sortDesc_perm (l : List UnifiedSearchResult) : (sortDesc l).Perm l := by
  induction l with
  | nil => exact List.Perm.refl _
  | cons x xs ih => exact (insertDesc_perm x (sortDesc xs)).trans (List.Perm.cons x ih)

theorem mem_of_mem_sortDesc {r : UnifiedSearchResult} {l : List UnifiedSearchResult}
    (h : r ∈ sortDesc l) : r ∈ l := (sortDesc_perm l).mem_iff.mp h

theorem mem_of_mem_partitionParts {p : UnifiedSearchResult → Bool}
    {r : UnifiedSearchResult} {l : List UnifiedSearchResult}
    (h : r ∈ sortDesc (l.partition p).1 ++ sortDesc (l.partition p).2) : r ∈ l := by
  rw [List.partition_eq_filter_filter] at h
  rcases List.mem_append.mp h with h1 | h1
  · exact List.mem_of_mem_filter (mem_of_mem_sortDesc h1)
  · exact List.mem_of_mem_filter (mem_of_mem_sortDesc h1)

/-! ## C8: idempotence of the duplicate-prefix thinning loop -/

theorem dedupAux_cons_keep {cap : Nat} {r : UnifiedSearchResult}
    {rest : List UnifiedSearchResult} {seen : List String} {len : Nat}
    (h1 : textKey r ≠ "") (h2 : seen.contains (textKey r) = false) :
    dedupAux cap (r :: rest) seen len =
      if len + 1 ≥ cap then [r]
      else r :: dedupAux cap rest (textKey r :: seen) (len + 1) := by
  have hc : (decide (textKey r ≠ "") && !(seen.contains (textKey r))) = true := by
    rw [h2]
    simp [h1]
  simp only [dedupAux]
  rw [if_pos hc]

theorem dedupAux_cons_skip {cap : Nat} {r : UnifiedSearchResult}
    {rest : List UnifiedSearchResult} {seen : List String} {len : Nat}
    (h : textKey r = "" ∨ seen.contains (textKey r) = true) :
    dedupAux cap (r :: rest) seen len =
      if len ≥ cap then [] else dedupAux cap rest seen len := by
  have hc : (decide (textKey r ≠ "") && !(seen.contains (textKey r))) = false := by
    rcases h with h | h
    · simp [h]
    · rw [h]
      simp
  simp only [dedupAux]
  rw [if_neg]
  rw [hc]
  simp

theorem dedupAux_spec (cap : Nat) :
    ∀ (l : List UnifiedSearchResult) (seen : List String) (len : Nat), len < cap →
      (∀ r ∈ dedupAux cap l seen len, textKey r ≠ "") ∧
      ((dedupAux cap l seen len).map textKey).Nodup ∧
      (∀ r ∈ dedupAux cap l seen len, seen.contains (textKey r) = false) ∧
      len + (dedupAux cap l seen len).length ≤ cap := by
  intro l
  induction l with
  | nil =>
    intro seen len hlen
    refine ⟨by simp [dedupAux], by simp [dedupAux], by simp [dedupAux], ?_⟩
    simp [dedupAux]
    omega
  | cons r rest ih =>
    intro seen len hlen
    by_cases h1 : textKey r = ""
    · rw [dedupAux_cons_skip (Or.inl h1), if_neg (by omega)]
      exact ih seen len hlen
    · by_cases h2 : seen.contains (textKey r) = true
      · rw [dedupAux_cons_skip (Or.inr h2), if_neg (by omega)]
        exact ih seen len hlen
      · have h2f : seen.contains (textKey r) = false := by
          cases hc : seen.contains (textKey r)
          · rfl
          · exact absurd hc h2
        rw [dedupAux_cons_keep h1 h2f]
        by_cases hcap : len + 1 ≥ cap
        · rw [if_pos hcap]
          refine ⟨?_, by simp, ?_, ?_⟩
          · intro x hx
            rcases List.mem_singleton.mp hx with rfl
            exact h1
          · intro x hx
            rcases List.mem_singleton.mp hx with rfl
            exact h2f
          · simp
            omega
        · rw [if_neg hcap]
          have hrec := ih (textKey r :: seen) (len + 1) (by omega)
          refine ⟨?_, ?_, ?_, ?_⟩
          · intro x hx
            rcases List.mem_cons.mp hx with rfl | hx
            · exact h1
            · exact hrec.1 x hx
          · simp only [List.map_cons, List.nodup_cons]
            refine ⟨?_, hrec.2.1⟩
            intro hmem
            rcases List.mem_map.mp hmem with ⟨x, hx, hxeq⟩
            have hcontains := hrec.2.2.1 x hx
            rw [List.contains_cons] at hcontains
            simp [hxeq] at hcontains
          · intro x hx
            rcases List.mem_cons.mp hx with rfl | hx
            · exact h2f
            · have hcontains := hrec.2.2.1 x hx
              rw [List.contains_cons] at hcontains
              exact (Bool.or_eq_false_iff.mp hcontains).2
          · simp only [List.length_cons]
            have := hrec.2.2.2
            omega

theorem dedupAux_fixed (cap : Nat) :
    ∀ (l : List UnifiedSearchResult) (seen : List String) (len : Nat),
      (∀ r ∈ l, textKey r ≠ "") → ((l.map textKey).Nodup) →
      (∀ r ∈ l, seen.contains (textKey r) = false) →
      len + l.length ≤ cap →
      dedupAux cap l seen len = l := by
  intro l
  induction l with
  | nil => intro seen len _ _ _ _; rfl
  | cons r rest ih =>
    intro seen len hkeys hnodup hseen hlen
    have hk : textKey r ≠ "" := hkeys r (List.mem_cons_self r rest)
    have hs : seen.contains (textKey r) = false := hseen r (List.mem_cons_self r rest)
    rw [dedupAux_cons_keep hk hs]
    by_cases hcap : len + 1 ≥ cap
    · rw [if_pos hcap]
      have hrest : rest = [] := by
        have hlen2 : len + (rest.length + 1) ≤ cap := by simpa using hlen
        have : rest.length = 0 := by omega
        exact List.length_eq_zero.mp this
      rw [hrest]
    · rw [if_neg hcap]
      congr 1
      rw [List.map_cons, List.nodup_cons] at hnodup
      apply ih
      · intro x hx; exact hkeys x (List.mem_cons_of_mem r hx)
      · exact hnodup.2
      · intro x hx
        have hne : ¬ textKey r = textKey x := by
          intro heq
          exact hnodup.1 (heq ▸ List.mem_map_of_mem textKey hx)
        rw [List.contains_cons, Bool.or_eq_false_iff]
        refine ⟨beq_eq_false_iff_ne.mpr (fun heq => hne heq.symm), ?_⟩
        exact hseen x (List.mem_cons_of_mem r hx)
      · simp only [List.length_cons] at hlen
        omega

/-- C8: the duplicate-prefix deduplication pass of `TodayPlanChain` is
idempotent: re-running `dedupDiverseTasks` on its own output returns that
output unchanged, in order, for any positive cap (the source uses caps 15
and 20). -/
theorem C8_dedup_idempotent (cap : Nat) (results : List UnifiedSearchResult)
    (hcap : 1 ≤ cap) :
    dedupDiverseTasks cap (dedupDiverseTasks cap results) = dedupDiverseTasks cap results := by
  have hspec := dedupAux_spec cap results [] 0 (by omega)
  apply dedupAux_fixed cap (dedupAux cap results [] 0) [] 0
  · exact hspec.1
  · exact hspec.2.1
  · intro r _
    rfl
  · simpa using hspec.2.2.2

/-- C8 witness: the idempotence theorem applied at the source's cap 15 on a
concrete result list. -/
theorem C8_dedup_idempotent_witness :
    dedupDiverseTasks 15 (dedupDiverseTasks 15
        [⟨"c1", "d1", "daily", "detail", "업무 A", 1, []⟩,
         ⟨"c2", "d2", "daily", "detail", "업무 A", 2, []⟩,
         ⟨"c3", "d3", "daily", "detail", "업무 B", 1, []⟩]) =
      dedupDiverseTasks 15
        [⟨"c1", "d1", "daily", "detail", "업무 A", 1, []⟩,
         ⟨"c2", "d2", "daily", "detail", "업무 A", 2, []⟩,
         ⟨"c3", "d3", "daily", "detail", "업무 B", 1, []⟩] :=
  C8_dedup_idempotent 15 _ (by decide)

/-! ## C9: the rerank passes and the unresolved filter only reorder/remove -/

theorem mem_of_mem_step4 {keywords : SearchKeywords} {r : UnifiedSearchResult}
    {l : List UnifiedSearchResult} (h : r ∈ step4CustomerFilter keywords l) : r ∈ l := by
  unfold step4CustomerFilter at h
  dsimp only at h
  split at h
  · split at h
    · split at h
      · exact List.mem_of_mem_filter h
      · rw [List.partition_eq_filter_filter] at h
        rcases List.mem_append.mp h with h1 | h1
        · exact List.mem_of_mem_filter h1
        · exact List.mem_of_mem_filter h1
    · exact h
  · exact h

theorem mem_of_mem_step5 {keywords : SearchKeywords} {r : UnifiedSearchResult}
    {l : List UnifiedSearchResult} (h : r ∈ step5CustomerSort keywords l) : r ∈ l := by
  unfold step5CustomerSort at h
  dsimp only at h
  split at h
  · split at h
    · exact mem_of_mem_partitionParts h
    · exact h
  · exact h

theorem mem_of_mem_step6 {query : String} {r : UnifiedSearchResult}
    {l : List UnifiedSearchResult} (h : r ∈ step6KeywordSort query l) : r ∈ l := by
  unfold step6KeywordSort at h
  dsimp only at h
  split at h
  · exact mem_of_mem_partitionParts h
  · exact h

theorem mem_of_mem_step7 {query : String} {keywords : SearchKeywords} {top_k : Nat}
    {r : UnifiedSearchResult} {l : List UnifiedSearchResult}
    (h : r ∈ step7TopK query keywords top_k l) : r ∈ l := by
  unfold step7TopK at h
  dsimp only at h
  split at h
  · exact h
  · split at h
    · exact h
    · split at h
      · exact h
      · exact List.mem_of_mem_take h

theorem mem_of_mem_filter_completed
    {searchNextDay : String → PyDate → List UnifiedSearchResult}
    {r : UnifiedSearchResult} :
    ∀ {l : List UnifiedSearchResult},
      r ∈ filter_completed_unresolved_tasks searchNextDay l → r ∈ l := by
  intro l
  induction l with
  | nil => intro h; exact absurd h (by simp [filter_completed_unresolved_tasks])
  | cons x rest ih =>
    intro h
    unfold filter_completed_unresolved_tasks at h
    split at h
    · rcases List.mem_cons.mp h with rfl | h1
      · exact List.mem_cons_self _ _
      · exact List.mem_cons_of_mem _ (ih h1)
    · dsimp only at h
      split at h
      · exact List.mem_cons_of_mem _ (ih h)
      · rcases List.mem_cons.mp h with rfl | h1
        · exact List.mem_cons_self _ _
        · exact List.mem_cons_of_mem _ (ih h1)

/-- C9: the rerank passes of `HybridSearcher.search` (steps 4-7: entity
filter/boost, lexical keyword boost, score sort, top-k cutoff) and the
unresolved-item temporal filter never edit a `UnifiedSearchResult`: every
element of their output is (field-for-field) an element of the input list. -/
theorem C9_passes_only_reorder_or_remove :
    (∀ (query : String) (keywords : SearchKeywords) (top_k : Nat)
        (l : List UnifiedSearchResult) (r : UnifiedSearchResult),
      r ∈ rerankPipeline query keywords top_k l → r ∈ l) ∧
    (∀ (searchNextDay : String → PyDate → List UnifiedSearchResult)
        (l : List UnifiedSearchResult) (r : UnifiedSearchResult),
      r ∈ filter_completed_unresolved_tasks searchNextDay l → r ∈ l) := by
  constructor
  · intro query keywords top_k l r h
    unfold rerankPipeline at h
    exact mem_of_mem_step4
      (mem_of_mem_step5 (mem_of_mem_sortDesc (mem_of_mem_step6 (mem_of_mem_step7 h))))
  · intro searchNextDay l r h
    exact mem_of_mem_filter_completed h

/-- C9 witness: both parts of the theorem applied at concrete inputs. -/
theorem C9_passes_only_reorder_or_remove_witness :
    (⟨"c1", "d1", "daily", "detail", "업무 A", 1, []⟩ : UnifiedSearchResult) ∈
        ([⟨"c1", "d1", "daily", "detail", "업무 A", 1, []⟩] : List UnifiedSearchResult) ∧
    (⟨"c2", "d2", "daily", "pending", "업무 B", 1, []⟩ : UnifiedSearchResult) ∈
        ([⟨"c2", "d2", "daily", "pending", "업무 B", 1, []⟩] : List UnifiedSearchResult) :=
  ⟨C9_passes_only_reorder_or_remove.1 "" {} 1 _ _ (by
      show _ ∈ rerankPipeline "" {} 1 [⟨"c1", "d1", "daily", "detail", "업무 A", 1, []⟩]
      exact List.mem_singleton.mpr rfl),
   C9_passes_only_reorder_or_remove.2 (fun _ _ => []) _ _ (by
      show _ ∈ filter_completed_unresolved_tasks (fun _ _ => [])
        [⟨"c2", "d2", "daily", "pending", "업무 B", 1, []⟩]
      exact List.mem_singleton.mpr rfl)⟩

/-! ## C5: the unresolved-item temporal filter -/

theorem overlapCheck_iff (a b : String) :
    overlapCheck a b = true ↔ overlapRatio a b > 1 / 2 := by
  unfold overlapCheck overlapRatio
  by_cases h1 : (wordsOf a).isEmpty
  · have ha : wordsOf a = [] := List.isEmpty_iff.mp h1
    rw [ha]
    simp
  · by_cases h2 : (wordsOf b).isEmpty
    · have hb : wordsOf b = [] := List.isEmpty_iff.mp h2
      rw [hb]
      simp [h1, List.filter_eq_nil_iff]
    · simp [h1, h2]

theorem filter_completed_eq_filter
    (searchNextDay : String → PyDate → List UnifiedSearchResult)
    (l : List UnifiedSearchResult) :
    filter_completed_unresolved_tasks searchNextDay l =
      l.filter (fun x => keepCandidate searchNextDay x) := by
  induction l with
  | nil => rfl
  | cons x rest ih =>
    rw [List.filter_cons]
    cases hp : parseDateFromMetadata x.metadata with
    | none =>
      have hk : keepCandidate searchNextDay x = true := by simp [keepCandidate, hp]
      rw [hk]
      simp only [filter_completed_unresolved_tasks, hp, if_true]
      rw [ih]
    | some d =>
      have hk : keepCandidate searchNextDay x =
          !((searchNextDay x.text (nextDay d)).any
            (fun task => overlapCheck x.text task.text)) := by
        simp [keepCandidate, hp]
      simp only [filter_completed_unresolved_tasks, hp]
      cases hc : ((searchNextDay x.text (nextDay d)).any
          (fun task => overlapCheck x.text task.text)) with
      | true =>
        rw [hk, hc]
        simp only [Bool.not_true, if_false, hc]
        exact ih
      | false =>
        rw [hk, hc]
        simp only [Bool.not_false, if_true, hc]
        rw [ih]
        simp

/-- C5: a candidate with unparseable `date` metadata is kept; a candidate with
a parsed date is dropped if and only if some next-day result has word-set
overlap strictly greater than 1/2 (so an overlap of exactly 1/2 keeps the
candidate); and the whole pass is precisely the per-candidate filter applied
in order. -/
theorem C5_unresolved_filter_threshold
    (searchNextDay : String → PyDate → List UnifiedSearchResult)
    (l : List UnifiedSearchResult) (r : UnifiedSearchResult) :
    filter_completed_unresolved_tasks searchNextDay l =
        l.filter (fun x => keepCandidate searchNextDay x) ∧
    (parseDateFromMetadata r.metadata = none → keepCandidate searchNextDay r = true) ∧
    (∀ d : PyDate, parseDateFromMetadata r.metadata = some d →
      (keepCandidate searchNextDay r = false ↔
        ∃ t ∈ searchNextDay r.text (nextDay d), overlapRatio r.text t.text > 1 / 2)) := by
  refine ⟨filter_completed_eq_filter searchNextDay l, ?_, ?_⟩
  · intro h
    simp [keepCandidate, h]
  · intro d hd
    simp only [keepCandidate, hd]
    rw [Bool.not_eq_false']
    rw [List.any_eq_true]
    exact exists_congr (fun t => and_congr_right (fun _ => overlapCheck_iff r.text t.text))

/-- C5 witness: the theorem applied to the concrete pending candidate
`"보장 분석"` dated 2025-09-01, whose single next-day detail result `"보장 전달"`
has overlap exactly 1/2. -/
theorem C5_unresolved_filter_threshold_witness :
    parseDateFromMetadata
        (⟨"c1", "d1", "daily", "pending", "보장 분석", 1,
          [("date", "2025-09-01")]⟩ : UnifiedSearchResult).metadata =
      some ⟨2025, 9, 1⟩ ∧
    (keepCandidate
          (fun _ _ => [⟨"c2", "d2", "daily", "detail", "보장 전달", 1, []⟩])
          ⟨"c1", "d1", "daily", "pending", "보장 분석", 1, [("date", "2025-09-01")]⟩ = false ↔
      ∃ t ∈ (fun (_ : String) (_ : PyDate) =>
          [(⟨"c2", "d2", "daily", "detail", "보장 전달", 1, []⟩ : UnifiedSearchResult)])
            (⟨"c1", "d1", "daily", "pending", "보장 분석", 1,
              [("date", "2025-09-01")]⟩ : UnifiedSearchResult).text (nextDay ⟨2025, 9, 1⟩),
        overlapRatio "보장 분석" t.text > 1 / 2) :=
  ⟨rfl,
    (C5_unresolved_filter_threshold
      (fun _ _ => [⟨"c2", "d2", "daily", "detail", "보장 전달", 1, []⟩]) []
      ⟨"c1", "d1", "daily", "pending", "보장 분석", 1, [("date", "2025-09-01")]⟩).2.2
      ⟨2025, 9, 1⟩ rfl⟩

/-! ## C6 / C10: the statistical aggregator -/

theorem sumCounts_bump (k : String) (l : List (String × Nat)) :
    sumCounts (bump k l) = sumCounts l + 1 := by
  induction l with
  | nil => rfl
  | cons p rest ih =>
    by_cases h : p.1 = k
    · simp [bump, h, sumCounts]
      omega
    · simp only [bump, if_neg h]
      simp only [sumCounts, List.map_cons, List.sum_cons] at ih ⊢
      omega

/-- The per-chunk predicate of the amended C6 statement: the chunk matches the
category keyword and carries a truthy `date` metadata value. -/
def countedChunk (category_keyword : String) (chunk : Metadata × String) : Bool :=
  countMatch category_keyword chunk && pyTruthy (alookup "date" chunk.1)

theorem sumCounts_countStep (category_keyword : String)
    (acc : List (String × Nat) × List (String × String × String))
    (chunk : Metadata × String) :
    sumCounts (countStep category_keyword acc chunk).1 =
      sumCounts acc.1 + (if countedChunk category_keyword chunk then 1 else 0) := by
  unfold countStep countedChunk
  by_cases hm : countMatch category_keyword chunk = true
  · rw [hm]
    cases hd : alookup "date" chunk.1 with
    | none => simp [pyTruthy]
    | some s =>
      by_cases hs : s = ""
      · subst hs
        simp [pyTruthy]
      · simp [hs, pyTruthy, sumCounts_bump]
  · have hm2 : countMatch category_keyword chunk = false := by
      cases h : countMatch category_keyword chunk
      · rfl
      · exact absurd h hm
    simp [hm2]

theorem sumCounts_foldl (category_keyword : String) :
    ∀ (chunks : List (Metadata × String))
      (acc : List (String × Nat) × List (String × String × String)),
      sumCounts (chunks.foldl (countStep category_keyword) acc).1 =
        sumCounts acc.1 + (chunks.filter (countedChunk category_keyword)).length := by
  intro chunks
  induction chunks with
  | nil => intro acc; simp
  | cons c rest ih =>
    intro acc
    rw [List.foldl_cons, ih, sumCounts_countStep, List.filter_cons]
    by_cases hc : countedChunk category_keyword c = true
    · simp [hc]
      omega
    · have hc2 : countedChunk category_keyword c = false := by
        cases h : countedChunk category_keyword c
        · rfl
        · exact absurd h hc
      simp [hc2]

theorem collect_date_counts_eq (fetchedChunks : List (Metadata × String))
    (category_keyword : String) :
    (collect_daily_counts false (some fetchedChunks) category_keyword).date_counts =
      (fetchedChunks.foldl (countStep category_keyword) ([], [])).1 := by
  unfold collect_daily_counts
  cases hm : maxEntry (fetchedChunks.foldl (countStep category_keyword) ([], [])).1 with
  | none => simp [hm]
  | some m => simp [hm]

/-- C6 counterexample: a fetched detail chunk whose category matches the
keyword but which carries no `date` metadata is matched yet never counted, so
the total of `date_counts` falls short of the number of keyword-matching
filtered candidates. -/
theorem C6_sum_counts_counterexample :
    ¬ (sumCounts (collect_daily_counts false
          (some [([("category", "상담")], "업무")]) "상담").date_counts =
        ([([("category", "상담")], "업무")].filter
          (fun c => countMatch "상담" c)).length) := by
  decide

/-- C6 (amended): for every fetched candidate list and category keyword, the
values of `date_counts` sum to the number of fetched candidates that match
the category keyword *and* carry a non-empty `date` metadata value. -/
theorem C6_sum_counts_amended (fetchedChunks : List (Metadata × String))
    (category_keyword : String) :
    sumCounts (collect_daily_counts false
        (some fetchedChunks) category_keyword).date_counts =
      (fetchedChunks.filter (countedChunk category_keyword)).length := by
  rw [collect_date_counts_eq, sumCounts_foldl]
  simp [sumCounts]

theorem bump_fst_mem (a k : String) (l : List (String × Nat)) :
    a ∈ (bump k l).map Prod.fst ↔ a ∈ l.map Prod.fst ∨ a = k := by
  induction l with
  | nil => simp [bump]
  | cons p rest ih =>
    by_cases h : p.1 = k
    · simp only [bump, if_pos h, List.map_cons]
      subst h
      simp
      tauto
    · simp only [bump, if_neg h, List.map_cons, List.mem_cons]
      rw [ih]
      tauto

theorem bump_nodup (k : String) (l : List (String × Nat))
    (h : (l.map Prod.fst).Nodup) : ((bump k l).map Prod.fst).Nodup := by
  induction l with
  | nil => simp [bump]
  | cons p rest ih =>
    rw [List.map_cons, List.nodup_cons] at h
    by_cases hp : p.1 = k
    · simp only [bump, if_pos hp, List.map_cons, List.nodup_cons]
      exact h
    · simp only [bump, if_neg hp, List.map_cons, List.nodup_cons]
      refine ⟨?_, ih h.2⟩
      rw [bump_fst_mem]
      rintro (hmem | heq)
      · exact h.1 hmem
      · exact hp heq

theorem countStep_nodup (category_keyword : String)
    (acc : List (String × Nat) × List (String × String × String))
    (chunk : Metadata × String) (h : (acc.1.map Prod.fst).Nodup) :
    ((countStep category_keyword acc chunk).1.map Prod.fst).Nodup := by
  unfold countStep
  by_cases hm : countMatch category_keyword chunk = true
  · rw [if_pos hm]
    cases hd : alookup "date" chunk.1 with
    | none => exact h
    | some s =>
      by_cases hs : s = ""
      · simp [hs, h]
      · simp only [hs, if_pos, ne_eq, not_false_iff]
        simpa using bump_nodup s acc.1 h
  · rw [if_neg hm]
    exact h

theorem foldl_countStep_nodup (category_keyword : String) :
    ∀ (chunks : List (Metadata × String))
      (acc : List (String × Nat) × List (String × String × String)),
      (acc.1.map Prod.fst).Nodup →
      ((chunks.foldl (countStep category_keyword) acc).1.map Prod.fst).Nodup := by
  intro chunks
  induction chunks with
  | nil => intro acc h; exact h
  | cons c rest ih =>
    intro acc h
    rw [List.foldl_cons]
    exact ih _ (countStep_nodup category_keyword acc c h)

theorem alookup_of_mem {k : String} {v : Nat} :
    ∀ {l : List (String × Nat)}, (l.map Prod.fst).Nodup → (k, v) ∈ l →
      alookup k l = some v := by
  intro l
  induction l with
  | nil => intro _ h; exact absurd h (List.not_mem_nil _)
  | cons p rest ih =>
    intro hnodup hmem
    rw [List.map_cons, List.nodup_cons] at hnodup
    rcases List.mem_cons.mp hmem with heq | hmem2
    · rw [← heq]
      simp [alookup]
    · have hne : p.1 ≠ k := by
        intro hk
        exact hnodup.1 (hk ▸ List.mem_map_of_mem Prod.fst hmem2)
      simp only [alookup, if_neg hne]
      exact ih hnodup.2 hmem2

theorem maxEntry_eq_none {l : List (String × Nat)} (h : maxEntry l = none) : l = [] := by
  cases l with
  | nil => rfl
  | cons a rest =>
    exfalso
    simp only [maxEntry] at h
    split at h
    · exact Option.noConfusion h
    · split at h
      · exact Option.noConfusion h
      · exact Option.noConfusion h

theorem maxEntry_mem : ∀ {l : List (String × Nat)} {p : String × Nat},
    maxEntry l = some p → p ∈ l := by
  intro l
  induction l with
  | nil => intro p h; exact Option.noConfusion h
  | cons a rest ih =>
    intro p h
    simp only [maxEntry] at h
    split at h
    · exact List.mem_cons.mpr (Or.inl (Option.some_injective _ h).symm)
    · rename_i m hm
      split at h
      · have hmp : m = p := Option.some_injective _ h
        exact List.mem_cons_of_mem _ (ih (hmp ▸ hm))
      · exact List.mem_cons.mpr (Or.inl (Option.some_injective _ h).symm)

theorem maxEntry_val : ∀ {l : List (String × Nat)} {p : String × Nat},
    maxEntry l = some p → p.2 = maxCountVal l := by
  intro l
  induction l with
  | nil => intro p h; exact Option.noConfusion h
  | cons a rest ih =>
    intro p h
    simp only [maxEntry] at h
    split at h
    · rename_i hm
      have hrest : rest = [] := maxEntry_eq_none hm
      subst hrest
      rw [← Option.some_injective _ h]
      simp [maxCountVal]
    · rename_i m hm
      have hmval : m.2 = maxCountVal rest := ih hm
      have hfold : maxCountVal (a :: rest) = max a.2 (maxCountVal rest) := rfl
      split at h
      · rename_i hq
        rw [← Option.some_injective _ h, hfold]
        omega
      · rename_i hq
        rw [← Option.some_injective _ h, hfold]
        omega

/-- The result-shape invariant of `_collect_daily_counts`: `max_count` is the
maximum of the per-date counts, and either everything is in its empty form or
`max_date` is a key of `date_counts` mapped to `max_count`. -/
def dailyCountsInvariant (r : DailyCountsResult) : Prop :=
  r.max_count = maxCountVal r.date_counts ∧
  ((r.date_counts = [] ∧ r.max_date = none ∧ r.max_count = 0) ∨
   (∃ k : String, r.max_date = some k ∧ alookup k r.date_counts = some r.max_count))

/-- C10: on every input — including an empty document-id prefilter and a
raised index exception (`fetched = none`), on which it returns the empty
form — `_collect_daily_counts` returns a dictionary satisfying the
`max_date`/`max_count`/`date_counts` consistency invariant; it never raises. -/
theorem C10_daily_counts_invariant (doc_ids_empty : Bool)
    (fetched : Option (List (Metadata × String))) (category_keyword : String) :
    dailyCountsInvariant (collect_daily_counts doc_ids_empty fetched category_keyword) ∧
    collect_daily_counts doc_ids_empty none category_keyword = emptyDailyCounts := by
  constructor
  · cases doc_ids_empty with
    | true =>
      refine ⟨rfl, Or.inl ⟨rfl, rfl, rfl⟩⟩
    | false =>
      cases fetched with
      | none => exact ⟨rfl, Or.inl ⟨rfl, rfl, rfl⟩⟩
      | some chunks =>
        have hnodup : (((chunks.foldl (countStep category_keyword) ([], [])).1).map
            Prod.fst).Nodup :=
          foldl_countStep_nodup category_keyword chunks ([], []) (by simp)
        unfold collect_daily_counts
        cases hm : maxEntry (chunks.foldl (countStep category_keyword) ([], [])).1 with
        | none =>
          have hempty := maxEntry_eq_none hm
          simp only [Bool.false_eq_true, if_false, hm]
          refine ⟨?_, Or.inl ⟨hempty, rfl, rfl⟩⟩
          rw [hempty]
          rfl
        | some m =>
          simp only [Bool.false_eq_true, if_false, hm]
          refine ⟨maxEntry_val hm, Or.inr ⟨m.1, rfl, ?_⟩⟩
          exact alookup_of_mem hnodup (maxEntry_mem hm)
  · cases doc_ids_empty with
    | true => rfl
    | false => rfl

/-! ## C7: determinism of the Query Analyzer -/

/-- One legitimate `list(set(...))` enumeration: first occurrences kept
(e.g. one hash-seed's iteration order). -/
def ordA : List String → List String := fun l => l.dedup

/-- Another legitimate `list(set(...))` enumeration: the reverse order
(e.g. a different hash-seed's iteration order). -/
def ordB : List String → List String := fun l => l.dedup.reverse

theorem validSetOrder_ordA : ValidSetOrder ordA :=
  fun l => ⟨l.nodup_dedup, fun _ => List.mem_dedup⟩

theorem validSetOrder_ordB : ValidSetOrder ordB :=
  fun l =>
    ⟨List.nodup_reverse.mpr l.nodup_dedup,
     fun s => (List.mem_reverse).trans List.mem_dedup⟩

/-- C7 counterexample: on the query `"라유하 고객 문세아 고객"` two legitimate
set-enumeration orders (two runs under different hash seeds) produce
`SearchKeywords` values that differ in the order of `customer_names`, so the
analyzer is not deterministic as a two-run property across interpreter runs. -/
theorem C7_two_runs_differ :
    ValidSetOrder ordA ∧ ValidSetOrder ordB ∧
    extract_keywords "라유하 고객 문세아 고객" (some ⟨2025, 11, 12⟩) (some "김미소")
        ⟨2025, 11, 12⟩ ordA ≠
      extract_keywords "라유하 고객 문세아 고객" (some ⟨2025, 11, 12⟩) (some "김미소")
        ⟨2025, 11, 12⟩ ordB :=
  ⟨validSetOrder_ordA, validSetOrder_ordB, by decide⟩

/-- C7 (amended): for identical `(query, base_date, owner)` inputs, any two
runs of `extract_keywords` agree on every field except possibly the order of
`customer_names`, which is duplicate-free and equal as a set; runs sharing one
set-enumeration order (one interpreter process) agree exactly. -/
theorem C7_analyzer_deterministic_amended
    (query : String) (base_date : Option PyDate) (owner : Option String)
    (today : PyDate) (ord1 ord2 : List String → List String)
    (h1 : ValidSetOrder ord1) (h2 : ValidSetOrder ord2) :
    (extract_keywords query base_date owner today ord1).date_range =
        (extract_keywords query base_date owner today ord2).date_range ∧
    (extract_keywords query base_date owner today ord1).single_date =
        (extract_keywords query base_date owner today ord2).single_date ∧
    (extract_keywords query base_date owner today ord1).chunk_types =
        (extract_keywords query base_date owner today ord2).chunk_types ∧
    (extract_keywords query base_date owner today ord1).is_unresolved_query =
        (extract_keywords query base_date owner today ord2).is_unresolved_query ∧
    (extract_keywords query base_date owner today ord1).is_statistical_query =
        (extract_keywords query base_date owner today ord2).is_statistical_query ∧
    (extract_keywords query base_date owner today ord1).customer_names.Nodup ∧
    (extract_keywords query base_date owner today ord2).customer_names.Nodup ∧
    (∀ s : String,
      s ∈ (extract_keywords query base_date owner today ord1).customer_names ↔
      s ∈ (extract_keywords query base_date owner today ord2).customer_names) := by
  refine ⟨rfl, rfl, rfl, rfl, rfl, (h1 _).1, (h2 _).1, ?_⟩
  intro s
  exact Iff.trans ((h1 _).2 s) (((h2 _).2 s)).symm

/-- C7 witness: the amended determinism theorem applied to the counterexample
query under the two concrete enumeration orders. -/
theorem C7_analyzer_deterministic_amended_witness :
    (extract_keywords "라유하 고객 문세아 고객" (some ⟨2025, 11, 12⟩) (some "김미소")
        ⟨2025, 11, 12⟩ ordA).date_range =
      (extract_keywords "라유하 고객 문세아 고객" (some ⟨2025, 11, 12⟩) (some "김미소")
        ⟨2025, 11, 12⟩ ordB).date_range ∧
    (extract_keywords "라유하 고객 문세아 고객" (some ⟨2025, 11, 12⟩) (some "김미소")
        ⟨2025, 11, 12⟩ ordA).single_date =
      (extract_keywords "라유하 고객 문세아 고객" (some ⟨2025, 11, 12⟩) (some "김미소")
        ⟨2025, 11, 12⟩ ordB).single_date ∧
    (extract_keywords "라유하 고객 문세아 고객" (some ⟨2025, 11, 12⟩) (some "김미소")
        ⟨2025, 11, 12⟩ ordA).chunk_types =
      (extract_keywords "라유하 고객 문세아 고객" (some ⟨2025, 11, 12⟩) (some "김미소")
        ⟨2025, 11, 12⟩ ordB).chunk_types ∧
    (extract_keywords "라유하 고객 문세아 고객" (some ⟨2025, 11, 12⟩) (some "김미소")
        ⟨2025, 11, 12⟩ ordA).is_unresolved_query =
      (extract_keywords "라유하 고객 문세아 고객" (some ⟨2025, 11, 12⟩) (some "김미소")
        ⟨2025, 11, 12⟩ ordB).is_unresolved_query ∧
    (extract_keywords "라유하 고객 문세아 고객" (some ⟨2025, 11, 12⟩) (some "김미소")
        ⟨2025, 11, 12⟩ ordA).is_statistical_query =
      (extract_keywords "라유하 고객 문세아 고객" (some ⟨2025, 11, 12⟩) (some "김미소")
        ⟨2025, 11, 12⟩ ordB).is_statistical_query ∧
    (extract_keywords "라유하 고객 문세아 고객" (some ⟨2025, 11, 12⟩) (some "김미소")
        ⟨2025, 11, 12⟩ ordA).customer_names.Nodup ∧
    (extract_keywords "라유하 고객 문세아 고객" (some ⟨2025, 11, 12⟩) (some "김미소")
        ⟨2025, 11, 12⟩ ordB).customer_names.Nodup ∧
    (∀ s : String,
      s ∈ (extract_keywords "라유하 고객 문세아 고객" (some ⟨2025, 11, 12⟩) (some "김미소")
        ⟨2025, 11, 12⟩ ordA).customer_names ↔
      s ∈ (extract_keywords "라유하 고객 문세아 고객" (some ⟨2025, 11, 12⟩) (some "김미소")
        ⟨2025, 11, 12⟩ ordB).customer_names) :=
  C7_analyzer_deterministic_amended "라유하 고객 문세아 고객" (some ⟨2025, 11, 12⟩)
    (some "김미소") ⟨2025, 11, 12⟩ ordA ordB validSetOrder_ordA validSetOrder_ordB

/-! ## C4: explicit absolute dates take strict priority -/

/-- C4: whenever the absolute-date stage of `_detect_date_range` finds a valid
explicit date in the (normalised) query, `_detect_date_range` returns exactly
that one-day range — regardless of any relative-date keyword also present —
and `extract_keywords` publishes it as `single_date` (formatted
`"%Y-%m-%d"`) with `date_range = None`. -/
theorem C4_explicit_date_priority
    (query : String) (base : PyDate) (owner : Option String) (today : PyDate)
    (ord : List String → List String) (dt : PyDate)
    (h : specificDateStage (normalizeQuery query) base = some dt) :
    detectDateRange query base = some ⟨dt, dt⟩ ∧
    (extract_keywords query (some base) owner today ord).single_date =
        some (fmtDate dt) ∧
    (extract_keywords query (some base) owner today ord).date_range = none := by
  have hd : detectDateRange query base = some ⟨dt, dt⟩ := by
    simp only [detectDateRange, h]
  refine ⟨hd, ?_, ?_⟩
  · simp [extract_keywords, hd]
  · simp [extract_keywords, hd]

/-- C4 witness: the priority theorem applied to a query containing both the
explicit date `2025년 10월 7일` and the relative keyword `이번 주`. -/
theorem C4_explicit_date_priority_witness :
    specificDateStage (normalizeQuery "2025년 10월 7일 이번 주에 뭐 했어?") ⟨2025, 11, 12⟩ =
        some ⟨2025, 10, 7⟩ ∧
    thisWeekPat (normalizeQuery "2025년 10월 7일 이번 주에 뭐 했어?") = true ∧
    fmtDate ⟨2025, 10, 7⟩ = "2025-10-07" ∧
    (extract_keywords "2025년 10월 7일 이번 주에 뭐 했어?" (some ⟨2025, 11, 12⟩)
        (some "김미소") ⟨2025, 11, 12⟩ ordA).single_date = some (fmtDate ⟨2025, 10, 7⟩) ∧
    (extract_keywords "2025년 10월 7일 이번 주에 뭐 했어?" (some ⟨2025, 11, 12⟩)
        (some "김미소") ⟨2025, 11, 12⟩ ordA).date_range = none :=
  ⟨by decide, by decide, by decide,
   (C4_explicit_date_priority "2025년 10월 7일 이번 주에 뭐 했어?" ⟨2025, 11, 12⟩
     (some "김미소") ⟨2025, 11, 12⟩ ordA ⟨2025, 10, 7⟩ (by decide)).2.1,
   (C4_explicit_date_priority "2025년 10월 7일 이번 주에 뭐 했어?" ⟨2025, 11, 12⟩
     (some "김미소") ⟨2025, 11, 12⟩ ordA ⟨2025, 10, 7⟩ (by decide)).2.2⟩

/-! ## C1: the entity-query filter still carries a date clause -/

/-- Keywords of an entity query with no date in the query text. -/
def entityOnlyKeywords : SearchKeywords :=
  { customer_names := ["라유하"], chunk_types := ["detail", "pending", "plan_note"] }

/-- Keywords of an entity query whose text also contains an explicit date. -/
def entitySingleDateKeywords : SearchKeywords :=
  { customer_names := ["라유하"], single_date := some "2025-10-07",
    chunk_types := ["detail", "pending", "plan_note"] }

/-- Keywords of an entity query whose text also contains a relative range. -/
def entityRangeKeywords : SearchKeywords :=
  { customer_names := ["라유하"], date_range := some ⟨⟨2025, 11, 3⟩, ⟨2025, 11, 7⟩⟩,
    chunk_types := ["detail", "pending", "plan_note"] }

set_option maxRecDepth 4000 in
/-- C1 refutation (code bug): for an entity query (`customer_names` non-empty)
the main-retrieval filter built by `HybridSearcher.search` via
`build_where_filter` contains a date clause in all three date situations —
the caller-nulled fallback still falls through to the trailing-365-day window,
and a detected `single_date` or `date_range` is kept verbatim — contradicting
both the specification and the source's own comment that the date filter is
removed for entity queries. -/
theorem C1_entity_filter_still_has_date_clause :
    hasDateClause (mainWhereFilter entityOnlyKeywords (some "김미소")
        (some ⟨⟨2025, 9, 1⟩, ⟨2025, 9, 5⟩⟩) ⟨2025, 10, 12⟩) = true ∧
    hasDateClause (mainWhereFilter entitySingleDateKeywords (some "김미소")
        none ⟨2025, 10, 12⟩) = true ∧
    hasDateClause (mainWhereFilter entityRangeKeywords (some "김미소")
        none ⟨2025, 10, 12⟩) = true := by
  refine ⟨?_, ?_, ?_⟩ <;> decide

/-! ## C2: an embedding failure is returned as an empty result list -/

/-- C2 refutation (code bug): `_execute_search` wraps the whole body —
including the re-raise in `_get_query_embedding` — in
`except Exception: return []`, so an embedding-provider failure produces the
same normal value `[]` as a legitimate zero-match search against a live
index; no failure propagates and the two outcomes are indistinguishable to
the caller. -/
theorem C2_embedding_failure_indistinguishable :
    execute_search (Except.error ())
        (fun _ => Except.ok ⟨["chunk-1"], ["문서 본문"],
          [[("doc_id", "d1"), ("chunk_type", "detail")]], [0]⟩) = [] ∧
    execute_search (Except.ok [1])
        (fun _ => Except.ok ⟨[], [], [], []⟩) = [] :=
  ⟨rfl, rfl⟩

/-! ## C3: the first relaxation retry does not remove the date clause -/

/-- Keywords detected for a query carrying the old explicit date
`2023년 1월 5일` (as of `today = 2025-10-12`, outside the trailing-365-day
window). -/
def oldSingleDateKeywords : SearchKeywords :=
  { single_date := some "2023-01-05", chunk_types := ["detail", "pending", "plan_note"] }

/-- A chunk dated on that old date, owned by the searching owner. -/
def oldDatedChunkMeta : Metadata :=
  [("report_type", "daily"), ("level", "daily"), ("owner", "김미소"),
   ("date", "2023-01-05"), ("chunk_type", "detail")]

set_option maxRecDepth 4000 in
/-- C3 refutation (code bug): in the relaxation ladder of
`HybridSearcher.search`, the first retry (built from
`SearchKeywords(chunk_types=...)` with `base_date_range=None`) still contains
a date clause — `build_where_filter` substitutes the trailing-365-day
fallback window — and it is not a superset of the full predicate: a chunk
matching the full filter (explicit old `single_date`) fails the first-retry
filter.  Only the second, minimal filter is date-free and matches the chunk
again. -/
theorem C3_first_relaxation_keeps_date_clause :
    matchesWhere oldDatedChunkMeta (mainWhereFilter oldSingleDateKeywords
        (some "김미소") none ⟨2025, 10, 12⟩) = true ∧
    hasDateClause (relaxedWhereFilter oldSingleDateKeywords
        (some "김미소") ⟨2025, 10, 12⟩) = true ∧
    matchesWhere oldDatedChunkMeta (relaxedWhereFilter oldSingleDateKeywords
        (some "김미소") ⟨2025, 10, 12⟩) = false ∧
    matchesWhere oldDatedChunkMeta (minimalWhereFilter (some "김미소")) = true := by
  refine ⟨?_, ?_, ?_, ?_⟩ <;> decide
